import Mathlib

set_option maxHeartbeats 1000000

-- Shallow embedding of ci/clang_check_attributes.py.
-- Cursors of the clang AST are modelled as numbered declarations; a Program
-- maps each number to the data the script reads from a cursor (kind, the
-- fully qualified pretty name, annotation strings, USR, source files, and the
-- referenced targets of the call expressions collected by get_call_expr).
-- The global state of the script (PRINTED, TRANSLATE_UNITS) is threaded
-- explicitly; parseLog records each INDEX.parse invocation and output records
-- each line emitted by print_node.  Recursion is bounded by explicit fuel:
-- a result of none means the fuel ran out, and a run that returns none for
-- every fuel corresponds to a non-terminating execution of the script.

inductive CKind where
  | constructor
  | cxxMethod
  | functionDecl
  | translationUnit
  | other
  deriving DecidableEq, Repr

structure DeclData where
  kind : CKind
  fqp : String
  annots : List String
  usr : String
  extentStartFile : Option String
  locationFile : Option String
  callRefs : List (Option Nat)
  deriving DecidableEq, Repr

structure TUnit where
  hasErrors : Bool
  topLevel : List Nat
  allDecls : List Nat
  deriving DecidableEq, Repr

structure Program where
  decls : Nat → DeclData
  disk : List (String × TUnit)

structure AState where
  printed : List String
  units : List (String × TUnit)
  parseLog : List String
  output : List String
  deriving DecidableEq, Repr

def initState : AState := { printed := [], units := [], parseLog := [], output := [] }

-- str(file) where file can be Python None
def strOfFile : Option String → String
  | none => "None"
  | some s => s

-- str.replace(".h", ".cpp"): every occurrence, scanning left to right
def replaceHAux : List Char → List Char
  | [] => []
  | '.' :: 'h' :: rest => '.' :: 'c' :: 'p' :: 'p' :: replaceHAux rest
  | c :: rest => c :: replaceHAux rest

def hToCpp (s : String) : String := String.mk (replaceHAux s.data)

-- str.endswith(".h")
def endsWithDotH (s : String) : Bool :=
  match s.data.reverse with
  | 'h' :: '.' :: _ => true
  | _ => false

-- str.startswith(p)
def startsWithS (s p : String) : Bool := p.data.isPrefixOf s.data

def lookupA {α : Type} : List (String × α) → String → Option α
  | [], _ => none
  | (k, v) :: rest, key => if k = key then some v else lookupA rest key

def updateA {α : Type} : List (String × α) → String → α → List (String × α)
  | [], k, v => [(k, v)]
  | (k1, v1) :: rest, k, v =>
      if k1 = k then (k, v) :: rest else (k1, v1) :: updateA rest k v

def mtSafeKinds : List CKind := [CKind.constructor]

def isExcluded (prog : Program) (xfiles xprefs : List String) (d : Nat) : Bool :=
  match (prog.decls d).extentStartFile with
  | none => false
  | some f =>
      xfiles.any (fun xf => startsWithS f xf) ||
      xprefs.any (fun xp => startsWithS (prog.decls d).fqp xp)

def usrSearch (prog : Program) (ids : List Nat) (usr : String) : Option Nat :=
  ids.find? (fun i => decide ((prog.decls i).usr = usr))

-- find_usr: fetch the .cpp unit from TRANSLATE_UNITS or parse it; a parse
-- whose diagnostics hold an Error or Fatal severity returns nothing and is
-- not cached; otherwise search the top level cursors for a matching USR.
def findUsr (prog : Program) (file usr : String) (st : AState) : Option Nat × AState :=
  let fileCpp := hToCpp file
  match lookupA st.units fileCpp with
  | some tu => (usrSearch prog tu.topLevel usr, st)
  | none =>
      let st1 : AState := { st with parseLog := st.parseLog ++ [fileCpp] }
      match lookupA prog.disk fileCpp with
      | none => (none, st1)
      | some tu =>
          if tu.hasErrors then (none, st1)
          else (usrSearch prog tu.topLevel usr,
                { st1 with units := updateA st1.units fileCpp tu })

-- lines 134-138 of find_funcs / print_funcs: the header to implementation
-- upgrade; on a failed lookup the referenced declaration stays in place.
def resolveStep (prog : Program) (r : Nat) (st : AState) : Nat × AState :=
  let lf := strOfFile (prog.decls r).locationFile
  if endsWithDotH lf then
    if (lookupA prog.disk (hToCpp lf)).isSome then
      match findUsr prog lf (prog.decls r).usr st with
      | (some d, st1) => (d, st1)
      | (none, st1) => (r, st1)
    else (r, st)
  else (r, st)

-- find_funcs, with the loop over get_call_expr(node) made explicit over the
-- list of referenced targets.  Each loop step and each recursive descent
-- consumes one unit of fuel.
def findFuncsList (prog : Program) (xf xp : List String) :
    Nat → List (Option Nat) → AState → Option (Bool × AState)
  | 0, _, _ => none
  | _ + 1, [], st => some (true, st)
  | fuel + 1, c :: rest, st =>
    match c with
    | none => findFuncsList prog xf xp fuel rest st
    | some r =>
      if isExcluded prog xf xp r then
        findFuncsList prog xf xp fuel rest st
      else if (prog.decls r).fqp ∈ st.printed then
        findFuncsList prog xf xp fuel rest st
      else
        let rs := resolveStep prog r st
        let st2 :=
          if (prog.decls rs.1).fqp ∈ rs.2.printed then rs.2
          else { rs.2 with printed := rs.2.printed ++ [(prog.decls rs.1).fqp] }
        if "MT_SAFE" ∉ (prog.decls rs.1).annots ∧ (prog.decls rs.1).kind ∉ mtSafeKinds then
          some (false, st2)
        else if (prog.decls rs.1).kind = CKind.cxxMethod ∨
                (prog.decls rs.1).kind = CKind.constructor ∨
                (prog.decls rs.1).kind = CKind.functionDecl then
          findFuncsList prog xf xp fuel (prog.decls rs.1).callRefs st2
        else
          findFuncsList prog xf xp fuel rest st2

def findFuncs (prog : Program) (xf xp : List String) (fuel node : Nat) (st : AState) :
    Option (Bool × AState) :=
  findFuncsList prog xf xp fuel (prog.decls node).callRefs st

def checkSafe (prog : Program) (xf xp : List String) (fuel node : Nat) (st : AState) :
    Option Bool :=
  (findFuncs prog xf xp fuel node st).map (fun p => p.1)

def printNode (prog : Program) (d : Nat) (st : AState) : AState :=
  if (prog.decls d).fqp ∈ st.printed then st
  else { st with output := st.output ++ [(prog.decls d).fqp],
                 printed := st.printed ++ [(prog.decls d).fqp] }

-- print_funcs: same loop as find_funcs, but prints every node and continues
-- with the remaining siblings after a recursive descent.
def printFuncsList (prog : Program) (xf xp : List String) :
    Nat → List (Option Nat) → AState → Option AState
  | 0, _, _ => none
  | _ + 1, [], st => some st
  | fuel + 1, c :: rest, st =>
    match c with
    | none => printFuncsList prog xf xp fuel rest st
    | some r =>
      if isExcluded prog xf xp r then
        printFuncsList prog xf xp fuel rest st
      else if (prog.decls r).fqp ∈ st.printed then
        printFuncsList prog xf xp fuel rest st
      else
        let rs := resolveStep prog r st
        let st2 := printNode prog rs.1 rs.2
        if (prog.decls rs.1).kind = CKind.cxxMethod ∨
           (prog.decls rs.1).kind = CKind.constructor ∨
           (prog.decls rs.1).kind = CKind.functionDecl then
          match printFuncsList prog xf xp fuel (prog.decls rs.1).callRefs st2 with
          | none => none
          | some st3 => printFuncsList prog xf xp fuel rest st3
        else
          printFuncsList prog xf xp fuel rest st2

-- show_info: every CXX_METHOD carrying the MT_SAFE annotation is an entry
-- point; a false verdict of find_funcs appends it to UNSAFE_CALLS (flagged).
def showInfoList (prog : Program) (xf xp : List String) (fuel : Nat) :
    List Nat → AState → List Nat → Option (AState × List Nat)
  | [], st, fl => some (st, fl)
  | n :: rest, st, fl =>
    if (prog.decls n).kind = CKind.cxxMethod ∧ "MT_SAFE" ∈ (prog.decls n).annots then
      match findFuncs prog xf xp fuel n st with
      | none => none
      | some (b, st1) =>
          showInfoList prog xf xp fuel rest st1 (if b then fl else fl ++ [n])
    else showInfoList prog xf xp fuel rest st fl

-- the driver loop of main over the compile command entries: each entry is
-- parsed unconditionally, stored in TRANSLATE_UNITS, and only then checked
-- against files_read; a unit with Error or Fatal diagnostics ends the run.
def mainLoop (prog : Program) (xf xp : List String) (fuel : Nat) :
    List String → List String → AState → List Nat → Option (AState × List Nat × Bool)
  | [], _, st, fl => some (st, fl, false)
  | f :: rest, filesRead, st, fl =>
    let st1 : AState := { st with parseLog := st.parseLog ++ [f] }
    match lookupA prog.disk f with
    | none => some (st1, fl, true)
    | some tu =>
        let st2 : AState := { st1 with units := updateA st1.units f tu }
        if f ∈ filesRead then mainLoop prog xf xp fuel rest filesRead st2 fl
        else if tu.hasErrors then some (st2, fl, true)
        else
          match showInfoList prog xf xp fuel tu.allDecls st2 fl with
          | none => none
          | some (st3, fl1) => mainLoop prog xf xp fuel rest (filesRead ++ [f]) st3 fl1

-- one round of the explanation loop of main: PRINTED.clear(), print_node of
-- the flagged entry, print_funcs over its body, then the separator line.
def explainOne (prog : Program) (xf xp : List String) (fuel n : Nat) (st : AState) :
    Option AState :=
  let st0 : AState := { st with printed := [] }
  let st1 := printNode prog n st0
  match printFuncsList prog xf xp fuel (prog.decls n).callRefs st1 with
  | none => none
  | some st2 => some { st2 with output := st2.output ++ ["--------------"] }

def explainPhase (prog : Program) (xf xp : List String) (fuel : Nat) :
    List Nat → AState → Option AState
  | [], st => some st
  | n :: rest, st =>
    match explainOne prog xf xp fuel n st with
    | none => none
    | some st1 => explainPhase prog xf xp fuel rest st1

-- main, with the compile command list supplied directly: the check phase
-- collects the flagged entries, then the explanation phase renders each one;
-- a fatal unit aborts before the explanation phase, mirroring the early
-- return of main.
def analyzerRun (prog : Program) (xf xp : List String) (fuel : Nat) (cmds : List String) :
    Option (AState × List Nat × Bool) :=
  match mainLoop prog xf xp fuel cmds [] initState [] with
  | none => none
  | some (st, fl, true) => some (st, fl, true)
  | some (st, fl, false) =>
      match explainPhase prog xf xp fuel fl st with
      | none => none
      | some st1 => some (st1, fl, false)

-- resolution as a pure function of the program, used to state the lemmas
-- that relate a run with a consistent unit cache to the cache free behavior.
def pureFindUsr (prog : Program) (file usr : String) : Option Nat :=
  match lookupA prog.disk (hToCpp file) with
  | none => none
  | some tu => if tu.hasErrors then none else usrSearch prog tu.topLevel usr

def pureResolve (prog : Program) (r : Nat) : Nat :=
  let lf := strOfFile (prog.decls r).locationFile
  if endsWithDotH lf then
    if (lookupA prog.disk (hToCpp lf)).isSome then
      match pureFindUsr prog lf (prog.decls r).usr with
      | some d => d
      | none => r
    else r
  else r

-- every unit held by TRANSLATE_UNITS is the parse result of its path and is
-- free of fatal diagnostics; true of every state the explanation phase of a
-- completed run can reach.
def cacheOk (prog : Program) (st : AState) : Prop :=
  ∀ p u, lookupA st.units p = some u → lookupA prog.disk p = some u ∧ u.hasErrors = false

-- default declaration used for unused identifiers of concrete programs
def dflt : DeclData :=
  { kind := CKind.other, fqp := "", annots := [], usr := "",
    extentStartFile := none, locationFile := none, callRefs := [] }

-- a call reference that the loop of find_funcs skips with no state change:
-- unresolved, excluded, or already visited
def skippedRef (prog : Program) (xf xp : List String) (st : AState) (c : Option Nat) : Prop :=
  c = none ∨ ∃ r, c = some r ∧
    (isExcluded prog xf xp r = true ∨ (prog.decls r).fqp ∈ st.printed)

-- entry E whose extraction order is [safe method S, unannotated function U]
def progC1 : Program :=
  { decls := fun n =>
      match n with
      | 0 => { kind := CKind.cxxMethod, fqp := "E", annots := ["MT_SAFE"], usr := "uE",
               extentStartFile := some ("m.cpp"), locationFile := some ("m.cpp"),
               callRefs := [some 1, some 2] }
      | 1 => { kind := CKind.cxxMethod, fqp := "S", annots := ["MT_SAFE"], usr := "uS",
               extentStartFile := some ("m.cpp"), locationFile := some ("m.cpp"),
               callRefs := [] }
      | 2 => { kind := CKind.functionDecl, fqp := "U", annots := [], usr := "uU",
               extentStartFile := some ("m.cpp"), locationFile := some ("m.cpp"),
               callRefs := [] }
      | _ => dflt,
    disk := [] }

-- X (declaration 3) lives under the excluded path, U (declaration 2) is the
-- unannotated function target
def progC1w : Program :=
  { decls := fun n =>
      match n with
      | 2 => { kind := CKind.functionDecl, fqp := "U", annots := [], usr := "uU",
               extentStartFile := some ("m.cpp"), locationFile := some ("m.cpp"),
               callRefs := [] }
      | 3 => { kind := CKind.functionDecl, fqp := "X", annots := [], usr := "uX",
               extentStartFile := some ("/usr/x.cpp"), locationFile := some ("/usr/x.cpp"),
               callRefs := [] }
      | _ => dflt,
    disk := [] }

-- two safe annotated methods M1 (1) and M2 (2), both calling the unannotated
-- function U (3), all in one translation unit
def tuC2 : TUnit := { hasErrors := false, topLevel := [1, 2, 3], allDecls := [1, 2, 3] }

def progC2 : Program :=
  { decls := fun n =>
      match n with
      | 1 => { kind := CKind.cxxMethod, fqp := "M1", annots := ["MT_SAFE"], usr := "u1",
               extentStartFile := some ("m.cpp"), locationFile := some ("m.cpp"),
               callRefs := [some 3] }
      | 2 => { kind := CKind.cxxMethod, fqp := "M2", annots := ["MT_SAFE"], usr := "u2",
               extentStartFile := some ("m.cpp"), locationFile := some ("m.cpp"),
               callRefs := [some 3] }
      | 3 => { kind := CKind.functionDecl, fqp := "U", annots := [], usr := "u3",
               extentStartFile := some ("m.cpp"), locationFile := some ("m.cpp"),
               callRefs := [] }
      | _ => dflt,
    disk := [(("m.cpp"), tuC2)] }

def stC2w : AState := { printed := [("U")], units := [], parseLog := [], output := [] }

-- declaration 0 has no source location, declaration 1 is unannotated and
-- lives under the excluded path
def progC4w : Program :=
  { decls := fun n =>
      match n with
      | 0 => { kind := CKind.functionDecl, fqp := "synth", annots := [], usr := "u0",
               extentStartFile := none, locationFile := none, callRefs := [] }
      | 1 => { kind := CKind.functionDecl, fqp := "lib", annots := [], usr := "u1",
               extentStartFile := some ("/usr/a.cpp"), locationFile := some ("/usr/a.cpp"),
               callRefs := [] }
      | _ => dflt,
    disk := [] }

-- an unannotated constructor with an empty body
def progC7w : Program :=
  { decls := fun n =>
      match n with
      | 1 => { kind := CKind.constructor, fqp := "Foo::Foo()", annots := [], usr := "u1",
               extentStartFile := some ("m.cpp"), locationFile := some ("m.cpp"),
               callRefs := [] }
      | _ => dflt,
    disk := [] }

-- header form (1) annotated MT_SAFE at x.h, implementation form (2) with the
-- same USR but no annotation at x.cpp
def tuC5w : TUnit := { hasErrors := false, topLevel := [2], allDecls := [] }

def progC5w : Program :=
  { decls := fun n =>
      match n with
      | 1 => { kind := CKind.functionDecl, fqp := "f()", annots := ["MT_SAFE"], usr := "uf",
               extentStartFile := some ("x.h"), locationFile := some ("x.h"),
               callRefs := [] }
      | 2 => { kind := CKind.functionDecl, fqp := "f()", annots := [], usr := "uf",
               extentStartFile := some ("x.cpp"), locationFile := some ("x.cpp"),
               callRefs := [] }
      | _ => dflt,
    disk := [(("x.cpp"), tuC5w)] }

-- entry E (0) calls the unannotated header declaration H (1) at x.h, and the
-- matching x.cpp unit parses with a fatal diagnostic
def progC6 : Program :=
  { decls := fun n =>
      match n with
      | 0 => { kind := CKind.cxxMethod, fqp := "E", annots := ["MT_SAFE"], usr := "uE",
               extentStartFile := some ("m.cpp"), locationFile := some ("m.cpp"),
               callRefs := [some 1] }
      | 1 => { kind := CKind.functionDecl, fqp := "H", annots := [], usr := "uh",
               extentStartFile := some ("x.h"), locationFile := some ("x.h"),
               callRefs := [] }
      | _ => dflt,
    disk := [(("x.cpp"), { hasErrors := true, topLevel := [], allDecls := [] })] }

def tuC9 : TUnit := { hasErrors := false, topLevel := [], allDecls := [0] }

def progC9 : Program := { decls := fun _ => dflt, disk := [(("a.cpp"), tuC9)] }

-- header form (1) at ok/x.h is not excluded; the implementation form (2)
-- with the same USR lives under the excluded path sys/ and calls leaf (3)
def tuC10w : TUnit := { hasErrors := false, topLevel := [2], allDecls := [] }

def progC10w : Program :=
  { decls := fun n =>
      match n with
      | 1 => { kind := CKind.functionDecl, fqp := "g()", annots := [], usr := "ug",
               extentStartFile := some ("ok/x.h"), locationFile := some ("ok/x.h"),
               callRefs := [] }
      | 2 => { kind := CKind.functionDecl, fqp := "g()", annots := [], usr := "ug",
               extentStartFile := some ("sys/x.cpp"), locationFile := some ("sys/x.cpp"),
               callRefs := [some 3] }
      | 3 => { kind := CKind.other, fqp := "leaf", annots := [], usr := "ul",
               extentStartFile := some ("m.cpp"), locationFile := some ("m.cpp"),
               callRefs := [] }
      | _ => dflt,
    disk := [(("ok/x.cpp"), tuC10w)] }

def missingCount (names printed : List String) : Nat :=
  (names.filter (fun x => decide (x ∉ printed))).length

def tuC3a : TUnit := { hasErrors := false, topLevel := [3], allDecls := [] }
def tuC3b : TUnit := { hasErrors := false, topLevel := [4], allDecls := [] }

def progC3 : Program :=
  { decls := fun n =>
      match n with
      | 0 => { kind := CKind.cxxMethod, fqp := "E", annots := ["MT_SAFE"], usr := "uE",
               extentStartFile := some ("e.cpp"), locationFile := some ("e.cpp"),
               callRefs := [some 1] }
      | 1 => { kind := CKind.functionDecl, fqp := "r1", annots := ["MT_SAFE"], usr := "u1",
               extentStartFile := some ("a.h"), locationFile := some ("a.h"),
               callRefs := [] }
      | 2 => { kind := CKind.functionDecl, fqp := "r2", annots := ["MT_SAFE"], usr := "u2",
               extentStartFile := some ("b.h"), locationFile := some ("b.h"),
               callRefs := [] }
      | 3 => { kind := CKind.cxxMethod, fqp := "c1", annots := ["MT_SAFE"], usr := "u1",
               extentStartFile := some ("a.cpp"), locationFile := some ("a.cpp"),
               callRefs := [some 2] }
      | 4 => { kind := CKind.cxxMethod, fqp := "c2", annots := ["MT_SAFE"], usr := "u2",
               extentStartFile := some ("b.cpp"), locationFile := some ("b.cpp"),
               callRefs := [some 1] }
      | _ => dflt,
    disk := [(("a.cpp"), tuC3a), (("b.cpp"), tuC3b)] }

def stC3a : AState :=
  { printed := ["c1"], units := [(("a.cpp"), tuC3a)], parseLog := ["a.cpp"], output := [] }

def stC3p : AState :=
  { printed := ["c1", "c2"], units := [(("a.cpp"), tuC3a), (("b.cpp"), tuC3b)],
    parseLog := ["a.cpp", "b.cpp"], output := [] }

-- the cyclic safe pair: A (0) calls B (1) and B calls A, both annotated
def progC3w : Program :=
  { decls := fun n =>
      match n with
      | 0 => { kind := CKind.cxxMethod, fqp := "A", annots := ["MT_SAFE"], usr := "uA",
               extentStartFile := some ("m.cpp"), locationFile := some ("m.cpp"),
               callRefs := [some 1] }
      | 1 => { kind := CKind.cxxMethod, fqp := "B", annots := ["MT_SAFE"], usr := "uB",
               extentStartFile := some ("m.cpp"), locationFile := some ("m.cpp"),
               callRefs := [some 0] }
      | _ => dflt,
    disk := [] }

-- two explanation traversals from states sharing a visited set produce the
-- same output segment on top of their own previous output
def printRel (prog : Program) (o1 o2 : Option AState) (st1 st2 : AState) : Prop :=
  (o1 = none ∧ o2 = none) ∨
  ∃ s1 s2 seg, o1 = some s1 ∧ o2 = some s2 ∧ s1.printed = s2.printed ∧
    s1.output = st1.output ++ seg ∧ s2.output = st2.output ++ seg ∧
    cacheOk prog s1 ∧ cacheOk prog s2

def stC8w : AState :=
  { printed := [("stale")], units := [], parseLog := [], output := [("earlier line")] }

theorem ffl_skip_front (prog : Program) (xf xp : List String) :
    ∀ (cs : List (Option Nat)) (F : Nat) (l : List (Option Nat)) (st : AState),
      (∀ c ∈ cs, skippedRef prog xf xp st c) →
      findFuncsList prog xf xp (F + cs.length) (cs ++ l) st =
      findFuncsList prog xf xp F l st := by
  intro cs
  induction cs with
  | nil => intro F l st _; simp
  | cons c cs ih =>
      intro F l st h
      have hc := h c (by simp)
      have hrest : ∀ c0 ∈ cs, skippedRef prog xf xp st c0 :=
        fun c0 hc0 => h c0 (by simp [hc0])
      have hlen : F + (c :: cs).length = (F + cs.length) + 1 := by
        simp only [List.length_cons]
        omega
      rw [hlen, List.cons_append]
      rcases hc with hnone | ⟨r, hr, hskip⟩
      · subst hnone
        simp only [findFuncsList]
        exact ih F l st hrest
      · subst hr
        simp only [findFuncsList]
        by_cases hex : isExcluded prog xf xp r = true
        · rw [if_pos hex]
          exact ih F l st hrest
        · rcases hskip with hex1 | hmem
          · exact absurd hex1 hex
          · rw [if_neg hex, if_pos hmem]
            exact ih F l st hrest

/-- Claim C1, counterexample.  Entry E (declaration 0) calls the safe annotated
method S and then the unannotated, non constructor, non excluded function U.
The claim demands check_safe(E) = false regardless of where U falls relative
to the safe calls, but find_funcs returns the verdict of its recursion into
the first expandable call target (the return at line 147 of the script) and
never reaches U, so check_safe(E) is true here. -/
theorem c1_counterexample : checkSafe progC1 [] [] 5 0 initState = some true := by decide

/-- Claim C1, amended.  If entry E calls one declaration U with no safe
annotation, U not of constructor kind, not excluded, not already visited and
not subject to a header upgrade, and every call reference extracted before U
is skipped by the loop (unresolved, excluded, or already visited), then
check_safe(E) returns false, however many other calls follow U.  (The
unamended claim also allowed safe expandable calls before U; the traversal
returns their recursion verdict without ever examining U.) -/
theorem c1_amended (prog : Program) (xf xp : List String)
    (cs rest : List (Option Nat)) (st : AState) (u F : Nat)
    (hskip : ∀ c ∈ cs, skippedRef prog xf xp st c)
    (hexc : isExcluded prog xf xp u = false)
    (hvis : (prog.decls u).fqp ∉ st.printed)
    (hnoh : endsWithDotH (strOfFile (prog.decls u).locationFile) = false)
    (hanno : "MT_SAFE" ∉ (prog.decls u).annots)
    (hkind : (prog.decls u).kind ∉ mtSafeKinds) :
    findFuncsList prog xf xp (F + cs.length + 1) (cs ++ some u :: rest) st =
      some (false, { st with printed := st.printed ++ [(prog.decls u).fqp] }) := by
  have h1 : F + cs.length + 1 = (F + 1) + cs.length := by omega
  rw [h1, ffl_skip_front prog xf xp cs (F + 1) (some u :: rest) st hskip]
  have hres : resolveStep prog u st = (u, st) := by
    unfold resolveStep
    rw [if_neg (by simp [hnoh])]
  simp only [findFuncsList, hres]
  rw [if_neg (by simp [hexc]), if_neg hvis, if_neg hvis, if_pos ⟨hanno, hkind⟩]

theorem c1_amended_witness :
    findFuncsList progC1w [("/usr")] [] 4 [some 3, some 2] initState =
      some (false, { initState with printed := [("U")] }) :=
  c1_amended progC1w [("/usr")] [] [some 3] [] initState 2 2
    (fun c hc => by
      simp only [List.mem_singleton] at hc
      subst hc
      exact Or.inr ⟨3, rfl, Or.inl (by decide)⟩)
    (by decide) (by decide) (by decide) (by decide) (by decide)

/-- Claim C2, counterexample.  Entries M1 and M2 both call the unannotated
function U.  Checked from a fresh state, M2 is a violation (second conjunct),
yet the run flags only M1: the PRINTED set filled during the check of M1 makes
the check of M2 skip U and return true, so the verdict for one entry point
does depend on the declarations visited during a previous check, and the
visited set is not consumed fresh per call. -/
theorem c2_counterexample :
    (analyzerRun progC2 [] [] 9 [("m.cpp")]).map (fun x => x.2.1) = some [1] ∧
    checkSafe progC2 [] [] 9 2 initState = some false := by decide

/-- Claim C2, amended.  The visited set is process wide state shared by every
entry point check of a run and reset only at the start of each violation
explanation.  First conjunct: a check whose call targets are all already in
the incoming visited set returns true with the state unchanged, whatever the
targets own annotations are, which is how an earlier entry check can change a
later verdict.  Second conjunct: each violation explanation clears the
visited set first, so its result is the same whatever PRINTED held before. -/
theorem c2_amended :
    (∀ (prog : Program) (xf xp : List String) (F : Nat) (l : List (Option Nat)) (st : AState),
      (∀ c ∈ l, ∃ r, c = some r ∧ (prog.decls r).fqp ∈ st.printed) →
      findFuncsList prog xf xp (F + l.length + 1) l st = some (true, st)) ∧
    (∀ (prog : Program) (xf xp : List String) (F n : Nat) (st : AState) (p : List String),
      explainOne prog xf xp F n st = explainOne prog xf xp F n { st with printed := p }) := by
  constructor
  · intro prog xf xp F l st h
    have h2 : F + l.length + 1 = (F + 1) + l.length := by omega
    have h3 := ffl_skip_front prog xf xp l (F + 1) [] st
      (fun c hc => by
        rcases h c hc with ⟨r, hr, hmem⟩
        exact Or.inr ⟨r, hr, Or.inr hmem⟩)
    rw [h2]
    rw [List.append_nil] at h3
    rw [h3]
    rfl
  · intro prog xf xp F n st p
    rfl

theorem c2_amended_witness :
    findFuncsList progC2 [] [] 2 [some 3] stC2w = some (true, stC2w) :=
  c2_amended.1 progC2 [] [] 0 [some 3] stC2w
    (fun c hc => by
      simp only [List.mem_singleton] at hc
      subst hc
      exact ⟨3, rfl, by decide⟩)

/-- Claim C4.  Exclusion of referenced call targets is absolute.  First
conjunct: a declaration with no known source location is never excluded.
Second and third conjuncts: at the moment the traversal reaches a call whose
referenced declaration U is excluded, both find_funcs and print_funcs skip it
with no effect on state or output (one fuel tick aside), whatever annotations
U has, so the Explainer never prints U or expands its body.  Fourth and fifth
conjuncts: an entry all of whose call references target excluded
declarations yields check_safe = true and an empty explanation, even when
every one of those targets is unannotated. -/
theorem c4_exclusion :
    (∀ (prog : Program) (xf xp : List String) (d : Nat),
      (prog.decls d).extentStartFile = none → isExcluded prog xf xp d = false) ∧
    (∀ (prog : Program) (xf xp : List String) (F u : Nat)
        (rest : List (Option Nat)) (st : AState),
      isExcluded prog xf xp u = true →
      findFuncsList prog xf xp (F + 1) (some u :: rest) st =
        findFuncsList prog xf xp F rest st) ∧
    (∀ (prog : Program) (xf xp : List String) (F u : Nat)
        (rest : List (Option Nat)) (st : AState),
      isExcluded prog xf xp u = true →
      printFuncsList prog xf xp (F + 1) (some u :: rest) st =
        printFuncsList prog xf xp F rest st) ∧
    (∀ (prog : Program) (xf xp : List String) (F : Nat)
        (l : List (Option Nat)) (st : AState),
      (∀ c ∈ l, ∃ u, c = some u ∧ isExcluded prog xf xp u = true) →
      findFuncsList prog xf xp (F + l.length + 1) l st = some (true, st)) ∧
    (∀ (prog : Program) (xf xp : List String) (F : Nat)
        (l : List (Option Nat)) (st : AState),
      (∀ c ∈ l, ∃ u, c = some u ∧ isExcluded prog xf xp u = true) →
      printFuncsList prog xf xp (F + l.length + 1) l st = some st) := by
  refine ⟨?_, ?_, ?_, ?_, ?_⟩
  · intro prog xf xp d h
    unfold isExcluded
    rw [h]
  · intro prog xf xp F u rest st h
    simp only [findFuncsList]
    rw [if_pos h]
  · intro prog xf xp F u rest st h
    simp only [printFuncsList]
    rw [if_pos h]
  · intro prog xf xp F l st h
    have h2 : F + l.length + 1 = (F + 1) + l.length := by omega
    have h3 := ffl_skip_front prog xf xp l (F + 1) [] st
      (fun c hc => by
        rcases h c hc with ⟨u, hu, hexc⟩
        exact Or.inr ⟨u, hu, Or.inl hexc⟩)
    rw [h2]
    rw [List.append_nil] at h3
    rw [h3]
    rfl
  · intro prog xf xp F l
    induction l with
    | nil => intro st _; rfl
    | cons c rest ih =>
        intro st h
        rcases h c (by simp) with ⟨u, hu, hexc⟩
        subst hu
        have h2 : F + (some u :: rest).length + 1 = (F + rest.length + 1) + 1 := by
          simp only [List.length_cons]
          omega
        rw [h2]
        simp only [printFuncsList]
        rw [if_pos hexc]
        exact ih st (fun c0 hc0 => h c0 (by simp [hc0]))

theorem c4_witness :
    isExcluded progC4w [("/usr")] [] 0 = false ∧
    findFuncsList progC4w [("/usr")] [] 3 [some 1] initState = some (true, initState) ∧
    printFuncsList progC4w [("/usr")] [] 3 [some 1] initState = some initState :=
  ⟨c4_exclusion.1 progC4w [("/usr")] [] 0 rfl,
   c4_exclusion.2.2.2.1 progC4w [("/usr")] [] 1 [some 1] initState
     (fun c hc => by
       simp only [List.mem_singleton] at hc
       subst hc
       exact ⟨1, rfl, by decide⟩),
   c4_exclusion.2.2.2.2 progC4w [("/usr")] [] 1 [some 1] initState
     (fun c hc => by
       simp only [List.mem_singleton] at hc
       subst hc
       exact ⟨1, rfl, by decide⟩)⟩

/-- Claim C7.  A call target of constructor kind is treated as safe
independently of its own annotations.  First conjunct: the unsafe test of
find_funcs (no MT_SAFE annotation and kind outside MT_SAFE_KINDS) can never
fire on a constructor.  Second conjunct: an entry whose single call targets a
constructor U with an empty body yields check_safe = true with no constraint
at all on the annotations of U, so U never by itself causes a false verdict. -/
theorem c7_ctor :
    (∀ (prog : Program) (u : Nat),
      (prog.decls u).kind = CKind.constructor →
      ¬("MT_SAFE" ∉ (prog.decls u).annots ∧ (prog.decls u).kind ∉ mtSafeKinds)) ∧
    (∀ (prog : Program) (xf xp : List String) (F u : Nat) (st : AState),
      (prog.decls u).kind = CKind.constructor →
      isExcluded prog xf xp u = false →
      (prog.decls u).fqp ∉ st.printed →
      endsWithDotH (strOfFile (prog.decls u).locationFile) = false →
      (prog.decls u).callRefs = [] →
      findFuncsList prog xf xp (F + 2) [some u] st =
        some (true, { st with printed := st.printed ++ [(prog.decls u).fqp] })) := by
  constructor
  · intro prog u hk h
    exact h.2 (by rw [hk]; exact List.mem_singleton.mpr rfl)
  · intro prog xf xp F u st hk hexc hvis hnoh hcalls
    have hres : resolveStep prog u st = (u, st) := by
      unfold resolveStep
      rw [if_neg (by simp [hnoh])]
    simp only [findFuncsList, hres]
    rw [if_neg (by simp [hexc]), if_neg hvis, if_neg hvis]
    rw [if_neg (fun h => h.2 (by rw [hk]; exact List.mem_singleton.mpr rfl))]
    rw [if_pos (Or.inr (Or.inl hk)), hcalls]
    rfl

theorem c7_witness :
    findFuncsList progC7w [] [] 3 [some 1] initState =
      some (true, { initState with printed := [("Foo::Foo()")] }) :=
  c7_ctor.2 progC7w [] [] 1 1 initState rfl (by decide) (by decide) (by decide) rfl

/-- Claim C5.  When a call target h is located in a header unit, the matching
implementation unit parses cleanly, and a top level declaration d of that
unit carries the same USR, the resolution step replaces h by d (first
conjunct) and the verdict of check_safe on an entry calling h follows the
annotations of d, not those of h: an unannotated, non constructor d makes the
check false even if h is annotated (second conjunct), and a safe annotated
method d with an empty body makes it true even if h is unannotated (third
conjunct).  The annotations of h are left unconstrained throughout. -/
theorem c5_upgrade (prog : Program) (xf xp : List String) (F h d : Nat)
    (f : String) (tu : TUnit)
    (hloc : (prog.decls h).locationFile = some f)
    (hends : endsWithDotH f = true)
    (hdisk : lookupA prog.disk (hToCpp f) = some tu)
    (herr : tu.hasErrors = false)
    (husr : usrSearch prog tu.topLevel (prog.decls h).usr = some d)
    (hexc : isExcluded prog xf xp h = false) :
    (resolveStep prog h initState).1 = d ∧
    ("MT_SAFE" ∉ (prog.decls d).annots → (prog.decls d).kind ∉ mtSafeKinds →
      findFuncsList prog xf xp (F + 1) [some h] initState =
        some (false, { printed := [(prog.decls d).fqp], units := [(hToCpp f, tu)],
                       parseLog := [hToCpp f], output := [] })) ∧
    ("MT_SAFE" ∈ (prog.decls d).annots → (prog.decls d).kind = CKind.cxxMethod →
      (prog.decls d).callRefs = [] →
      findFuncsList prog xf xp (F + 2) [some h] initState =
        some (true, { printed := [(prog.decls d).fqp], units := [(hToCpp f, tu)],
                      parseLog := [hToCpp f], output := [] })) := by
  have hlf : strOfFile (prog.decls h).locationFile = f := by rw [hloc]; rfl
  have hfu : findUsr prog f (prog.decls h).usr initState =
      (some d, { printed := [], units := [(hToCpp f, tu)],
                 parseLog := [hToCpp f], output := [] }) := by
    show (match lookupA initState.units (hToCpp f) with
          | some tu => (usrSearch prog tu.topLevel (prog.decls h).usr, initState)
          | none =>
              let st1 : AState :=
                { initState with parseLog := initState.parseLog ++ [hToCpp f] }
              match lookupA prog.disk (hToCpp f) with
              | none => (none, st1)
              | some tu =>
                  if tu.hasErrors then (none, st1)
                  else (usrSearch prog tu.topLevel (prog.decls h).usr,
                        { st1 with units := updateA st1.units (hToCpp f) tu })) = _
    rw [show lookupA initState.units (hToCpp f) = none from rfl, hdisk]
    simp only
    rw [if_neg (by simp [herr]), husr]
    rfl
  have hres : resolveStep prog h initState =
      (d, { printed := [], units := [(hToCpp f, tu)],
            parseLog := [hToCpp f], output := [] }) := by
    simp only [resolveStep, hlf]
    rw [if_pos hends, if_pos (by rw [hdisk]; rfl), hfu]
  refine ⟨by rw [hres], ?_, ?_⟩
  · intro hMT hkind
    simp only [findFuncsList, hres]
    have hm : ¬(prog.decls h).fqp ∈ initState.printed := by simp [initState]
    rw [if_neg hm, if_pos (And.intro hMT hkind),
        if_neg (show ¬isExcluded prog xf xp h = true by simp [hexc])]
    rfl
  · intro hMT hkind hbody
    simp only [findFuncsList, hres]
    have hm : ¬(prog.decls h).fqp ∈ initState.printed := by simp [initState]
    have hnu : ¬("MT_SAFE" ∉ (prog.decls d).annots ∧ (prog.decls d).kind ∉ mtSafeKinds) :=
      fun hx => hx.1 hMT
    rw [if_neg hm, if_neg hnu, if_pos (Or.inl hkind), hbody,
        if_neg (show ¬isExcluded prog xf xp h = true by simp [hexc])]
    rfl

theorem c5_witness :
    findFuncsList progC5w [] [] 3 [some 1] initState =
      some (false, { printed := [("f()")], units := [(("x.cpp"), tuC5w)],
                     parseLog := [("x.cpp")], output := [] }) :=
  (c5_upgrade progC5w [] [] 2 1 2 ("x.h") tuC5w rfl (by decide) (by decide) rfl
      (by decide) (by decide)).2.1 (by decide) (by decide)

/-- Claim C6, counterexample.  The definition unit x.cpp of the call target H
parses with a fatal diagnostic, so the claim demands that the call reference
be treated as unresolved and skipped, making check_safe(E) true.  Instead the
code keeps the originally referenced declaration H after the failed lookup
and checks the annotations of H, and since H is unannotated the check returns
false: the call is counted as a violation, not skipped. -/
theorem c6_counterexample : checkSafe progC6 [] [] 5 0 initState = some false := by decide

/-- Claim C6, amended.  When parsing the needed definition unit yields a
fatal diagnostic: find_usr returns nothing and leaves the unit cache exactly
as it was, only the parse log grows (first conjunct); the whole run is not
aborted, the resolution step merely falls back to the originally referenced
declaration r (second conjunct); and the traversal then decides on the
annotations of r itself, so an unannotated non constructor r is counted as a
violation rather than skipped (third conjunct). -/
theorem c6_amended (prog : Program) (xf xp : List String) (r : Nat) (tu : TUnit)
    (st : AState)
    (hends : endsWithDotH (strOfFile (prog.decls r).locationFile) = true)
    (hcache : lookupA st.units (hToCpp (strOfFile (prog.decls r).locationFile)) = none)
    (hdisk : lookupA prog.disk (hToCpp (strOfFile (prog.decls r).locationFile)) = some tu)
    (herr : tu.hasErrors = true) :
    (findUsr prog (strOfFile (prog.decls r).locationFile) (prog.decls r).usr st =
      (none, { st with parseLog :=
                 st.parseLog ++ [hToCpp (strOfFile (prog.decls r).locationFile)] })) ∧
    (resolveStep prog r st =
      (r, { st with parseLog :=
              st.parseLog ++ [hToCpp (strOfFile (prog.decls r).locationFile)] })) ∧
    (∀ (F : Nat) (rest : List (Option Nat)),
      isExcluded prog xf xp r = false →
      (prog.decls r).fqp ∉ st.printed →
      "MT_SAFE" ∉ (prog.decls r).annots →
      (prog.decls r).kind ∉ mtSafeKinds →
      findFuncsList prog xf xp (F + 1) (some r :: rest) st =
        some (false,
          { st with
              printed := st.printed ++ [(prog.decls r).fqp],
              parseLog :=
                st.parseLog ++ [hToCpp (strOfFile (prog.decls r).locationFile)] })) := by
  have hfu : findUsr prog (strOfFile (prog.decls r).locationFile) (prog.decls r).usr st =
      (none, { st with parseLog :=
                 st.parseLog ++ [hToCpp (strOfFile (prog.decls r).locationFile)] }) := by
    simp only [findUsr]
    rw [hcache, hdisk]
    simp only
    rw [if_pos herr]
  have hres : resolveStep prog r st =
      (r, { st with parseLog :=
              st.parseLog ++ [hToCpp (strOfFile (prog.decls r).locationFile)] }) := by
    simp only [resolveStep]
    rw [if_pos hends, if_pos (by rw [hdisk]; rfl), hfu]
  refine ⟨hfu, hres, ?_⟩
  intro F rest hexc hvis hMT hkind
  simp only [findFuncsList, hres]
  rw [if_neg (show ¬isExcluded prog xf xp r = true by simp [hexc]),
      if_neg hvis, if_neg hvis, if_pos (And.intro hMT hkind)]

theorem c6_witness :
    findFuncsList progC6 [] [] 3 [some 1] initState =
      some (false, { printed := [("H")], units := [],
                     parseLog := [("x.cpp")], output := [] }) :=
  (c6_amended progC6 [] [] 1 { hasErrors := true, topLevel := [], allDecls := [] }
      initState (by decide) rfl rfl rfl).2.2 2 []
    (by decide) (by decide) (by decide) (by decide)

theorem lookupA_updateA_self {α : Type} :
    ∀ (l : List (String × α)) (k : String) (v : α),
      lookupA (updateA l k v) k = some v := by
  intro l
  induction l with
  | nil => intro k v; simp [updateA, lookupA]
  | cons kv rest ih =>
      intro k v
      obtain ⟨k1, v1⟩ := kv
      by_cases h : k1 = k
      · simp [updateA, h, lookupA]
      · simp only [updateA, if_neg h, lookupA]
        exact ih k v

/-- Claim C9, counterexample.  The driver loop of main calls INDEX.parse on
every compile command entry before consulting files_read, so a compile
database listing a.cpp twice parses a.cpp twice in one run: the parse log of
the finished run holds two entries for the same unit, refuting "a unit is
parsed at most once per analyzer run". -/
theorem c9_counterexample :
    (analyzerRun progC9 [] [] 5 [("a.cpp"), ("a.cpp")]).map (fun x => x.1.parseLog) =
      some [("a.cpp"), ("a.cpp")] := by decide

/-- Claim C9, amended.  Only the resolver parses a unit at most once: a
find_usr lookup that hits the unit cache returns without touching any state
(first conjunct); a parse with fatal diagnostics is not cached and the
lookup fails (second conjunct); and a successful parse is cached, so an
immediately repeated lookup of the same unit is served from the cache with
no further parse (third conjunct).  The driver, by contrast, parses every
compile command entry unconditionally, before its duplicate check, so a
duplicated entry or a unit already cached by the resolver is parsed again. -/
theorem c9_amended :
    (∀ (prog : Program) (file usr : String) (st : AState) (tu : TUnit),
      lookupA st.units (hToCpp file) = some tu →
      findUsr prog file usr st = (usrSearch prog tu.topLevel usr, st)) ∧
    (∀ (prog : Program) (file usr : String) (st : AState) (tu : TUnit),
      lookupA st.units (hToCpp file) = none →
      lookupA prog.disk (hToCpp file) = some tu →
      tu.hasErrors = true →
      (findUsr prog file usr st).2.units = st.units ∧
      (findUsr prog file usr st).1 = none) ∧
    (∀ (prog : Program) (file usr usr2 : String) (st : AState) (tu : TUnit),
      lookupA st.units (hToCpp file) = none →
      lookupA prog.disk (hToCpp file) = some tu →
      tu.hasErrors = false →
      (findUsr prog file usr st).2.parseLog = st.parseLog ++ [hToCpp file] ∧
      findUsr prog file usr2 (findUsr prog file usr st).2 =
        (usrSearch prog tu.topLevel usr2, (findUsr prog file usr st).2)) := by
  have hhit : ∀ (prog : Program) (file usr : String) (st : AState) (tu : TUnit),
      lookupA st.units (hToCpp file) = some tu →
      findUsr prog file usr st = (usrSearch prog tu.topLevel usr, st) := by
    intro prog file usr st tu h
    simp only [findUsr]
    rw [h]
  refine ⟨hhit, ?_, ?_⟩
  · intro prog file usr st tu hmiss hdisk herr
    have : findUsr prog file usr st =
        (none, { st with parseLog := st.parseLog ++ [hToCpp file] }) := by
      simp only [findUsr]
      rw [hmiss, hdisk]
      simp only
      rw [if_pos herr]
    rw [this]
    exact ⟨rfl, rfl⟩
  · intro prog file usr usr2 st tu hmiss hdisk herr
    have h1 : findUsr prog file usr st =
        (usrSearch prog tu.topLevel usr,
         { st with parseLog := st.parseLog ++ [hToCpp file],
                   units := updateA st.units (hToCpp file) tu }) := by
      simp only [findUsr]
      rw [hmiss, hdisk]
      simp only
      rw [if_neg (by simp [herr])]
    rw [h1]
    refine ⟨rfl, ?_⟩
    exact hhit prog file usr2 _ tu (lookupA_updateA_self st.units (hToCpp file) tu)

theorem c9_witness :
    (findUsr progC5w ("x.h") ("uf") initState).2.parseLog = [("x.cpp")] ∧
    findUsr progC5w ("x.h") ("u2") (findUsr progC5w ("x.h") ("uf") initState).2 =
      (usrSearch progC5w tuC5w.topLevel ("u2"),
       (findUsr progC5w ("x.h") ("uf") initState).2) :=
  c9_amended.2.2 progC5w ("x.h") ("uf") ("u2") initState tuC5w rfl rfl rfl

theorem resolveStep_fresh (prog : Program) (h d : Nat) (f : String) (tu : TUnit)
    (hloc : (prog.decls h).locationFile = some f)
    (hends : endsWithDotH f = true)
    (hdisk : lookupA prog.disk (hToCpp f) = some tu)
    (herr : tu.hasErrors = false)
    (husr : usrSearch prog tu.topLevel (prog.decls h).usr = some d) :
    resolveStep prog h initState =
      (d, { printed := [], units := [(hToCpp f, tu)],
            parseLog := [hToCpp f], output := [] }) := by
  have hlf : strOfFile (prog.decls h).locationFile = f := by rw [hloc]; rfl
  have hfu : findUsr prog f (prog.decls h).usr initState =
      (some d, { printed := [], units := [(hToCpp f, tu)],
                 parseLog := [hToCpp f], output := [] }) := by
    simp only [findUsr]
    rw [show lookupA initState.units (hToCpp f) = none from rfl, hdisk]
    simp only
    rw [if_neg (by simp [herr]), husr]
    rfl
  simp only [resolveStep, hlf]
  rw [if_pos hends, if_pos (by rw [hdisk]; rfl), hfu]

/-- Claim C10.  Exclusion is decided only on the originally referenced
declaration, before the header to implementation upgrade.  With the header
form h not excluded but the upgraded implementation declaration d matching
the exclusion policy: check_safe still inspects d and returns false from the
missing annotation of d (first conjunct), and the Explainer still prints d
and expands the body of d, printing the callee g of d (second conjunct), so
the upgraded declaration is never re-tested against the policy. -/
theorem c10_preupgrade_exclusion (prog : Program) (xf xp : List String)
    (F h d g : Nat) (f : String) (tu : TUnit)
    (hloc : (prog.decls h).locationFile = some f)
    (hends : endsWithDotH f = true)
    (hdisk : lookupA prog.disk (hToCpp f) = some tu)
    (herr : tu.hasErrors = false)
    (husr : usrSearch prog tu.topLevel (prog.decls h).usr = some d)
    (hexcH : isExcluded prog xf xp h = false)
    (hexcD : isExcluded prog xf xp d = true)
    (hMT : "MT_SAFE" ∉ (prog.decls d).annots)
    (hkindD : (prog.decls d).kind = CKind.functionDecl)
    (hbody : (prog.decls d).callRefs = [some g])
    (hexcG : isExcluded prog xf xp g = false)
    (hfqpG : (prog.decls g).fqp ≠ (prog.decls d).fqp)
    (hnohG : endsWithDotH (strOfFile (prog.decls g).locationFile) = false)
    (hkindG : (prog.decls g).kind = CKind.other) :
    findFuncsList prog xf xp (F + 1) [some h] initState =
      some (false, { printed := [(prog.decls d).fqp], units := [(hToCpp f, tu)],
                     parseLog := [hToCpp f], output := [] }) ∧
    printFuncsList prog xf xp (F + 3) [some h] initState =
      some { printed := [(prog.decls d).fqp, (prog.decls g).fqp],
             units := [(hToCpp f, tu)], parseLog := [hToCpp f],
             output := [(prog.decls d).fqp, (prog.decls g).fqp] } := by
  have hres := resolveStep_fresh prog h d f tu hloc hends hdisk herr husr
  have hkindDne : (prog.decls d).kind ∉ mtSafeKinds := by
    rw [hkindD]
    decide
  have hm : ¬(prog.decls h).fqp ∈ initState.printed := by simp [initState]
  constructor
  · simp only [findFuncsList, hres]
    rw [if_neg hm, if_pos (And.intro hMT hkindDne),
        if_neg (show ¬isExcluded prog xf xp h = true by simp [hexcH])]
    rfl
  · simp only [printFuncsList, hres, printNode]
    rw [if_neg hm, if_neg (show ¬isExcluded prog xf xp h = true by simp [hexcH])]
    rw [if_pos (show (prog.decls d).kind = CKind.cxxMethod ∨
          (prog.decls d).kind = CKind.constructor ∨
          (prog.decls d).kind = CKind.functionDecl from Or.inr (Or.inr hkindD))]
    rw [hbody]
    have hinner : printFuncsList prog xf xp (F + 2) [some g]
        { printed := [] ++ [(prog.decls d).fqp], units := [(hToCpp f, tu)],
          parseLog := [hToCpp f], output := [] ++ [(prog.decls d).fqp] } =
        some { printed := [(prog.decls d).fqp, (prog.decls g).fqp],
               units := [(hToCpp f, tu)], parseLog := [hToCpp f],
               output := [(prog.decls d).fqp, (prog.decls g).fqp] } := by
      have hresG : resolveStep prog g
          { printed := [] ++ [(prog.decls d).fqp], units := [(hToCpp f, tu)],
            parseLog := [hToCpp f], output := [] ++ [(prog.decls d).fqp] } =
          (g, { printed := [] ++ [(prog.decls d).fqp], units := [(hToCpp f, tu)],
                parseLog := [hToCpp f], output := [] ++ [(prog.decls d).fqp] }) := by
        simp only [resolveStep]
        rw [if_neg (by simp [hnohG])]
      have hgm : ¬(prog.decls g).fqp ∈ [] ++ [(prog.decls d).fqp] := by simp [hfqpG]
      simp only [printFuncsList, hresG, printNode]
      rw [if_neg (show ¬isExcluded prog xf xp g = true by simp [hexcG])]
      rw [if_neg hgm]
      rw [if_neg (show ¬((prog.decls g).kind = CKind.cxxMethod ∨
            (prog.decls g).kind = CKind.constructor ∨
            (prog.decls g).kind = CKind.functionDecl) by
            rw [hkindG]; decide)]
      rw [if_neg hgm]
      rfl
    rw [if_neg (List.not_mem_nil ((prog.decls d).fqp)), hinner]

theorem c10_witness :
    findFuncsList progC10w [("sys")] [] 3 [some 1] initState =
      some (false, { printed := [("g()")], units := [(("ok/x.cpp"), tuC10w)],
                     parseLog := [("ok/x.cpp")], output := [] }) ∧
    printFuncsList progC10w [("sys")] [] 5 [some 1] initState =
      some { printed := [("g()"), ("leaf")], units := [(("ok/x.cpp"), tuC10w)],
             parseLog := [("ok/x.cpp")], output := [("g()"), ("leaf")] } :=
  c10_preupgrade_exclusion progC10w [("sys")] [] 2 1 2 3 ("ok/x.h") tuC10w
    rfl (by decide) rfl rfl (by decide) (by decide) (by decide) (by decide)
    rfl rfl (by decide) (by decide) (by decide) rfl

theorem lookupA_updateA {α : Type} :
    ∀ (l : List (String × α)) (k q : String) (v : α),
      lookupA (updateA l k v) q = if q = k then some v else lookupA l q := by
  intro l
  induction l with
  | nil =>
      intro k q v
      simp only [updateA, lookupA]
      by_cases h : q = k
      · rw [if_pos (h.symm : k = q), if_pos h]
      · rw [if_neg (show ¬k = q from fun hh => h hh.symm), if_neg h]
  | cons kv rest ih =>
      intro k q v
      obtain ⟨k1, v1⟩ := kv
      by_cases hk : k1 = k
      · subst hk
        simp only [updateA, if_pos rfl, lookupA]
        by_cases hq : q = k1
        · rw [if_pos (hq.symm : k1 = q), if_pos hq]
        · rw [if_neg (show ¬k1 = q from fun hh => hq hh.symm), if_neg hq,
              if_neg (show ¬k1 = q from fun hh => hq hh.symm)]
      · simp only [updateA, if_neg hk, lookupA]
        by_cases hq : k1 = q
        · have hqk : ¬q = k := fun hh => hk (hq.trans hh)
          rw [if_pos hq, if_neg hqk, if_pos hq]
        · rw [if_neg hq, ih, if_neg hq]

theorem missingCount_cons (a : String) (names printed : List String) :
    missingCount (a :: names) printed =
      (if a ∈ printed then 0 else 1) + missingCount names printed := by
  simp only [missingCount, List.filter_cons]
  by_cases h : a ∈ printed
  · simp [h]
  · simp [h]
    omega

theorem missingCount_le (names printed : List String) (x : String) :
    missingCount names (printed ++ [x]) ≤ missingCount names printed := by
  induction names with
  | nil => exact Nat.le_refl _
  | cons a names ih =>
      rw [missingCount_cons, missingCount_cons]
      by_cases h : a ∈ printed
      · rw [if_pos h, if_pos (List.mem_append_left _ h)]
        omega
      · rw [if_neg h]
        by_cases h2 : a ∈ printed ++ [x]
        · rw [if_pos h2]
          omega
        · rw [if_neg h2]
          omega

theorem missingCount_lt (names printed : List String) (x : String)
    (hx : x ∈ names) (hnp : x ∉ printed) :
    missingCount names (printed ++ [x]) < missingCount names printed := by
  induction names with
  | nil => exact absurd hx (List.not_mem_nil x)
  | cons a names ih =>
      rw [missingCount_cons, missingCount_cons]
      rcases List.mem_cons.mp hx with hax | hx2
      · subst hax
        rw [if_neg hnp, if_pos (List.mem_append_right _ (List.mem_singleton.mpr rfl))]
        have := missingCount_le names printed x
        omega
      · by_cases h : a ∈ printed
        · rw [if_pos h, if_pos (List.mem_append_left _ h)]
          have := ih hx2
          omega
        · rw [if_neg h]
          by_cases h2 : a ∈ printed ++ [x]
          · rw [if_pos h2]
            have := ih hx2
            omega
          · rw [if_neg h2]
            have := ih hx2
            omega

theorem findUsr_spec (prog : Program) (file usr : String) (st : AState)
    (hc : cacheOk prog st) :
    (findUsr prog file usr st).1 = pureFindUsr prog file usr ∧
    (findUsr prog file usr st).2.printed = st.printed ∧
    (findUsr prog file usr st).2.output = st.output ∧
    cacheOk prog (findUsr prog file usr st).2 := by
  cases hcu : lookupA st.units (hToCpp file) with
  | some tu =>
      obtain ⟨hd, he⟩ := hc _ _ hcu
      have h1 : findUsr prog file usr st = (usrSearch prog tu.topLevel usr, st) := by
        simp [findUsr, hcu]
      have h2 : pureFindUsr prog file usr = usrSearch prog tu.topLevel usr := by
        simp [pureFindUsr, hd, he]
      rw [h1, h2]
      exact ⟨rfl, rfl, rfl, hc⟩
  | none =>
      cases hdd : lookupA prog.disk (hToCpp file) with
      | none =>
          have h1 : findUsr prog file usr st =
              (none, { st with parseLog := st.parseLog ++ [hToCpp file] }) := by
            simp [findUsr, hcu, hdd]
          have h2 : pureFindUsr prog file usr = none := by
            simp [pureFindUsr, hdd]
          rw [h1, h2]
          exact ⟨rfl, rfl, rfl, hc⟩
      | some tu =>
          cases htu : tu.hasErrors with
          | true =>
              have h1 : findUsr prog file usr st =
                  (none, { st with parseLog := st.parseLog ++ [hToCpp file] }) := by
                simp [findUsr, hcu, hdd, htu]
              have h2 : pureFindUsr prog file usr = none := by
                simp [pureFindUsr, hdd, htu]
              rw [h1, h2]
              exact ⟨rfl, rfl, rfl, hc⟩
          | false =>
              have h1 : findUsr prog file usr st =
                  (usrSearch prog tu.topLevel usr,
                   { st with parseLog := st.parseLog ++ [hToCpp file],
                             units := updateA st.units (hToCpp file) tu }) := by
                simp [findUsr, hcu, hdd, htu]
              have h2 : pureFindUsr prog file usr = usrSearch prog tu.topLevel usr := by
                simp [pureFindUsr, hdd, htu]
              rw [h1, h2]
              refine ⟨rfl, rfl, rfl, ?_⟩
              intro p u hp
              simp only at hp
              rw [lookupA_updateA] at hp
              by_cases hpk : p = hToCpp file
              · rw [if_pos hpk] at hp
                cases hp
                exact ⟨hpk ▸ hdd, htu⟩
              · rw [if_neg hpk] at hp
                exact hc _ _ hp

theorem resolveStep_spec (prog : Program) (r : Nat) (st : AState)
    (hc : cacheOk prog st) :
    (resolveStep prog r st).1 = pureResolve prog r ∧
    (resolveStep prog r st).2.printed = st.printed ∧
    (resolveStep prog r st).2.output = st.output ∧
    cacheOk prog (resolveStep prog r st).2 := by
  simp only [resolveStep, pureResolve]
  by_cases h1 : endsWithDotH (strOfFile (prog.decls r).locationFile) = true
  · rw [if_pos h1, if_pos h1]
    by_cases h2 :
        (lookupA prog.disk (hToCpp (strOfFile (prog.decls r).locationFile))).isSome = true
    · rw [if_pos h2, if_pos h2]
      obtain ⟨hu1, hu2, hu3, hu4⟩ :=
        findUsr_spec prog (strOfFile (prog.decls r).locationFile) (prog.decls r).usr st hc
      cases hfu : findUsr prog (strOfFile (prog.decls r).locationFile) (prog.decls r).usr st with
      | mk o st1 =>
          rw [hfu] at hu1 hu2 hu3 hu4
          simp only at hu1 hu2 hu3 hu4
          cases o with
          | none =>
              rw [← hu1]
              exact ⟨rfl, hu2, hu3, hu4⟩
          | some d =>
              rw [← hu1]
              exact ⟨rfl, hu2, hu3, hu4⟩
    · rw [if_neg h2, if_neg h2]
      exact ⟨rfl, rfl, rfl, hc⟩
  · rw [if_neg h1, if_neg h1]
    exact ⟨rfl, rfl, rfl, hc⟩

theorem c3_term (prog : Program) (xf xp : List String) (S : Nat → Prop)
    (names : List String)
    (hpres : ∀ r, (prog.decls (pureResolve prog r)).fqp = (prog.decls r).fqp)
    (hsafe : ∀ d, S d → "MT_SAFE" ∈ (prog.decls d).annots)
    (hclo : ∀ d, S d → ∀ r, some r ∈ (prog.decls d).callRefs →
        isExcluded prog xf xp r = false → S (pureResolve prog r))
    (hnames : ∀ d, S d → (prog.decls d).fqp ∈ names) :
    ∀ (k : Nat) (l : List (Option Nat)) (st : AState),
      cacheOk prog st →
      (∀ r, some r ∈ l → isExcluded prog xf xp r = false → S (pureResolve prog r)) →
      missingCount names st.printed ≤ k →
      ∃ (F : Nat) (st1 : AState), findFuncsList prog xf xp F l st = some (true, st1) := by
  intro k
  induction k using Nat.strong_induction_on with
  | _ k SIH =>
    intro l
    induction l with
    | nil =>
        intro st hc hsrc hm
        exact ⟨1, st, rfl⟩
    | cons c rest ihl =>
        intro st hc hsrc hm
        have hsrcRest : ∀ r, some r ∈ rest → isExcluded prog xf xp r = false →
            S (pureResolve prog r) :=
          fun r hr hx => hsrc r (List.mem_cons_of_mem _ hr) hx
        cases c with
        | none =>
            obtain ⟨F, st1, hF⟩ := ihl st hc hsrcRest hm
            refine ⟨F + 1, st1, ?_⟩
            simp only [findFuncsList]
            exact hF
        | some r =>
            by_cases hex : isExcluded prog xf xp r = true
            · obtain ⟨F, st1, hF⟩ := ihl st hc hsrcRest hm
              refine ⟨F + 1, st1, ?_⟩
              simp only [findFuncsList]
              rw [if_pos hex]
              exact hF
            · have hexf : isExcluded prog xf xp r = false := by
                cases hval : isExcluded prog xf xp r
                · rfl
                · exact absurd hval hex
              by_cases hmem : (prog.decls r).fqp ∈ st.printed
              · obtain ⟨F, st1, hF⟩ := ihl st hc hsrcRest hm
                refine ⟨F + 1, st1, ?_⟩
                simp only [findFuncsList]
                rw [if_neg hex, if_pos hmem]
                exact hF
              · have hS : S (pureResolve prog r) := hsrc r (List.mem_cons_self _ _) hexf
                obtain ⟨hcall, hprint, hout, hcok⟩ := resolveStep_spec prog r st hc
                have hfcall : (prog.decls (resolveStep prog r st).1).fqp =
                    (prog.decls r).fqp := by rw [hcall, hpres]
                have hnm : (prog.decls (resolveStep prog r st).1).fqp ∉
                    (resolveStep prog r st).2.printed := by
                  rw [hfcall, hprint]
                  exact hmem
                have hsafecall :
                    "MT_SAFE" ∈ (prog.decls (resolveStep prog r st).1).annots := by
                  rw [hcall]
                  exact hsafe _ hS
                set st2 : AState :=
                  { (resolveStep prog r st).2 with
                      printed := (resolveStep prog r st).2.printed ++
                        [(prog.decls (resolveStep prog r st).1).fqp] } with hst2
                have hc2 : cacheOk prog st2 := fun p u hp => hcok p u hp
                have hmle : missingCount names st2.printed ≤
                    missingCount names st.printed := by
                  show missingCount names ((resolveStep prog r st).2.printed ++
                    [(prog.decls (resolveStep prog r st).1).fqp]) ≤
                    missingCount names st.printed
                  rw [hprint, hfcall]
                  exact missingCount_le names st.printed (prog.decls r).fqp
                by_cases hek :
                    (prog.decls (resolveStep prog r st).1).kind = CKind.cxxMethod ∨
                    (prog.decls (resolveStep prog r st).1).kind = CKind.constructor ∨
                    (prog.decls (resolveStep prog r st).1).kind = CKind.functionDecl
                · have hfR : (prog.decls r).fqp ∈ names := by
                    have hn := hnames _ hS
                    rw [hpres] at hn
                    exact hn
                  have hlt : missingCount names st2.printed <
                      missingCount names st.printed := by
                    show missingCount names ((resolveStep prog r st).2.printed ++
                      [(prog.decls (resolveStep prog r st).1).fqp]) <
                      missingCount names st.printed
                    rw [hprint, hfcall]
                    exact missingCount_lt names st.printed (prog.decls r).fqp hfR hmem
                  have hklt : missingCount names st2.printed < k :=
                    Nat.lt_of_lt_of_le hlt hm
                  have hsrcBody : ∀ r2,
                      some r2 ∈ (prog.decls (resolveStep prog r st).1).callRefs →
                      isExcluded prog xf xp r2 = false → S (pureResolve prog r2) := by
                    intro r2 hr2 hx2
                    rw [hcall] at hr2
                    exact hclo _ hS r2 hr2 hx2
                  obtain ⟨F, st1, hF⟩ := SIH (missingCount names st2.printed) hklt
                      (prog.decls (resolveStep prog r st).1).callRefs st2 hc2 hsrcBody
                      (Nat.le_refl _)
                  refine ⟨F + 1, st1, ?_⟩
                  simp only [findFuncsList]
                  rw [if_neg hex, if_neg hmem, if_neg hnm,
                      if_neg (fun hx => hx.1 hsafecall), if_pos hek]
                  exact hF
                · obtain ⟨F, st1, hF⟩ :=
                    ihl st2 hc2 hsrcRest (Nat.le_trans hmle hm)
                  refine ⟨F + 1, st1, ?_⟩
                  simp only [findFuncsList]
                  rw [if_neg hex, if_neg hmem, if_neg hnm,
                      if_neg (fun hx => hx.1 hsafecall), if_neg hek]
                  exact hF

-- every declaration carries MT_SAFE, yet the traversal loops: the entry E (0)
-- references r1 (1) in a.h, upgraded to c1 (3) in a.cpp; c1 references r2 (2)
-- in b.h, upgraded to c2 (4) in b.cpp; c2 references r1 again.  The upgrades
-- change the fully qualified name (r1 to c1, r2 to c2), so the pre upgrade
-- skip test never fires and the post upgrade names stop being appended once
-- both are in PRINTED: the recursion c1, c2, c1, ... never ends.

theorem c3_cycle_none : ∀ F,
    findFuncsList progC3 [] [] F [some 1] stC3p = none ∧
    findFuncsList progC3 [] [] F [some 2] stC3p = none := by
  intro F
  induction F with
  | zero => exact ⟨rfl, rfl⟩
  | succ F ih => exact ⟨ih.2, ih.1⟩

theorem c3_top_none : ∀ F, findFuncsList progC3 [] [] F [some 1] initState = none := by
  intro F
  cases F with
  | zero => rfl
  | succ F =>
      cases F with
      | zero => rfl
      | succ F => exact (c3_cycle_none F).1

/-- Claim C3, counterexample.  In progC3 the entry and every transitively
reachable call target carry the MT_SAFE annotation and nothing is excluded,
yet check_safe does not terminate: each header reference is upgraded to an
implementation declaration whose fully qualified name differs from the
referenced form, so the pre upgrade visited test never matches and the
traversal alternates between the two implementation bodies forever.  No
amount of fuel makes the embedded find_funcs return a verdict, which is the
fuel formulation of divergence. -/
theorem c3_counterexample :
    ¬ ∃ (F : Nat) (res : Bool × AState),
        findFuncs progC3 [] [] F 0 initState = some res := by
  rintro ⟨F, res, hres⟩
  have hnone : findFuncs progC3 [] [] F 0 initState = none := c3_top_none F
  rw [hnone] at hres
  exact Option.noConfusion hres

/-- Claim C3, amended.  If every call graph declaration transitively
reachable from the entry through non excluded references carries the MT_SAFE
annotation (an invariant set S closed under resolution with every member
safe), the finitely many relevant names are listed in names, and the header
to implementation upgrade preserves the fully qualified name of every
declaration (in particular when no upgrade fires at all), then check_safe
terminates and returns true: some fuel makes the traversal from a fresh
state yield the verdict true.  Cyclic safe graphs such as A calling B and B
calling A are covered, the visited set guarding the cycle.  The unamended
claim, with no name preservation requirement, is refuted by the
counterexample. -/
theorem c3_amended (prog : Program) (xf xp : List String) (entry : Nat)
    (S : Nat → Prop) (names : List String)
    (hpres : ∀ r, (prog.decls (pureResolve prog r)).fqp = (prog.decls r).fqp)
    (hsafe : ∀ d, S d → "MT_SAFE" ∈ (prog.decls d).annots)
    (hclo : ∀ d, S d → ∀ r, some r ∈ (prog.decls d).callRefs →
        isExcluded prog xf xp r = false → S (pureResolve prog r))
    (hnames : ∀ d, S d → (prog.decls d).fqp ∈ names)
    (hentry : ∀ r, some r ∈ (prog.decls entry).callRefs →
        isExcluded prog xf xp r = false → S (pureResolve prog r)) :
    ∃ (F : Nat) (st1 : AState),
      findFuncs prog xf xp F entry initState = some (true, st1) := by
  obtain ⟨F, st1, hF⟩ := c3_term prog xf xp S names hpres hsafe hclo hnames
      (missingCount names initState.printed) (prog.decls entry).callRefs initState
      (by intro p u hp; simp [initState, lookupA] at hp)
      hentry (Nat.le_refl _)
  exact ⟨F, st1, hF⟩

theorem c3_witness :
    ∃ (F : Nat) (st1 : AState),
      findFuncs progC3w [] [] F 0 initState = some (true, st1) :=
  c3_amended progC3w [] [] 0 (fun d => d = 0 ∨ d = 1) [("A"), ("B")]
    (fun r => by
      match r with
      | 0 => rfl
      | 1 => rfl
      | (n + 2) => rfl)
    (fun d hd => by
      rcases hd with h0 | h1
      · subst h0; decide
      · subst h1; decide)
    (fun d hd r hr hx => by
      rcases hd with h0 | h1
      · subst h0
        have hr2 : some r ∈ [some (1 : Nat)] := hr
        rw [List.mem_singleton] at hr2
        cases hr2
        exact Or.inr rfl
      · subst h1
        have hr2 : some r ∈ [some (0 : Nat)] := hr
        rw [List.mem_singleton] at hr2
        cases hr2
        exact Or.inl rfl)
    (fun d hd => by
      rcases hd with h0 | h1
      · subst h0; decide
      · subst h1; decide)
    (fun r hr hx => by
      have hr2 : some r ∈ [some (1 : Nat)] := hr
      rw [List.mem_singleton] at hr2
      cases hr2
      exact Or.inr rfl)

theorem printRel_shift (prog : Program) (o1 o2 : Option AState)
    (t1 t2 st1 st2 : AState) (seg0 : List String)
    (h : printRel prog o1 o2 t1 t2)
    (e1 : t1.output = st1.output ++ seg0)
    (e2 : t2.output = st2.output ++ seg0) :
    printRel prog o1 o2 st1 st2 := by
  rcases h with hn | ⟨s1, s2, seg, hs1, hs2, hsp, hso1, hso2, hk1, hk2⟩
  · exact Or.inl hn
  · refine Or.inr ⟨s1, s2, seg0 ++ seg, hs1, hs2, hsp, ?_, ?_, hk1, hk2⟩
    · rw [hso1, e1, List.append_assoc]
    · rw [hso2, e2, List.append_assoc]

theorem printNode_printed (prog : Program) (c : Nat) (st : AState) :
    (printNode prog c st).printed = st.printed ++
      (if (prog.decls c).fqp ∈ st.printed then [] else [(prog.decls c).fqp]) := by
  by_cases h : (prog.decls c).fqp ∈ st.printed
  · simp [printNode, h]
  · simp [printNode, h]

theorem printNode_output (prog : Program) (c : Nat) (st : AState) :
    (printNode prog c st).output = st.output ++
      (if (prog.decls c).fqp ∈ st.printed then [] else [(prog.decls c).fqp]) := by
  by_cases h : (prog.decls c).fqp ∈ st.printed
  · simp [printNode, h]
  · simp [printNode, h]

theorem printNode_units (prog : Program) (c : Nat) (st : AState) :
    (printNode prog c st).units = st.units := by
  by_cases h : (prog.decls c).fqp ∈ st.printed
  · simp [printNode, h]
  · simp [printNode, h]

theorem printNode_cacheOk (prog : Program) (c : Nat) (st : AState)
    (hc : cacheOk prog st) : cacheOk prog (printNode prog c st) := by
  intro p u hp
  rw [printNode_units] at hp
  exact hc p u hp

theorem pfl_cons_eq (prog : Program) (xf xp : List String) (F r : Nat)
    (rest : List (Option Nat)) (st : AState)
    (hex : isExcluded prog xf xp r = false)
    (hmem : (prog.decls r).fqp ∉ st.printed) :
    printFuncsList prog xf xp (F + 1) (some r :: rest) st =
      (if (prog.decls (resolveStep prog r st).1).kind = CKind.cxxMethod ∨
          (prog.decls (resolveStep prog r st).1).kind = CKind.constructor ∨
          (prog.decls (resolveStep prog r st).1).kind = CKind.functionDecl then
        match printFuncsList prog xf xp F
            (prog.decls (resolveStep prog r st).1).callRefs
            (printNode prog (resolveStep prog r st).1 (resolveStep prog r st).2) with
        | none => none
        | some st3 => printFuncsList prog xf xp F rest st3
      else
        printFuncsList prog xf xp F rest
          (printNode prog (resolveStep prog r st).1 (resolveStep prog r st).2)) := by
  simp only [printFuncsList]
  rw [if_neg (show ¬isExcluded prog xf xp r = true by simp [hex]), if_neg hmem]

theorem printSim (prog : Program) (xf xp : List String) :
    ∀ (F : Nat) (l : List (Option Nat)) (st1 st2 : AState),
      cacheOk prog st1 → cacheOk prog st2 → st1.printed = st2.printed →
      printRel prog (printFuncsList prog xf xp F l st1)
        (printFuncsList prog xf xp F l st2) st1 st2 := by
  intro F
  induction F with
  | zero =>
      intro l st1 st2 h1 h2 hp
      exact Or.inl ⟨rfl, rfl⟩
  | succ F ih =>
      intro l st1 st2 h1 h2 hp
      cases l with
      | nil =>
          refine Or.inr ⟨st1, st2, [], rfl, rfl, hp, ?_, ?_, h1, h2⟩
          · simp
          · simp
      | cons c rest =>
          cases c with
          | none =>
              show printRel prog (printFuncsList prog xf xp F rest st1)
                (printFuncsList prog xf xp F rest st2) st1 st2
              exact ih rest st1 st2 h1 h2 hp
          | some r =>
              by_cases hex : isExcluded prog xf xp r = true
              · have e1 : printFuncsList prog xf xp (F + 1) (some r :: rest) st1 =
                    printFuncsList prog xf xp F rest st1 := by
                  simp only [printFuncsList]
                  rw [if_pos hex]
                have e2 : printFuncsList prog xf xp (F + 1) (some r :: rest) st2 =
                    printFuncsList prog xf xp F rest st2 := by
                  simp only [printFuncsList]
                  rw [if_pos hex]
                rw [e1, e2]
                exact ih rest st1 st2 h1 h2 hp
              · have hexf : isExcluded prog xf xp r = false := by
                  cases hval : isExcluded prog xf xp r
                  · rfl
                  · exact absurd hval hex
                by_cases hmem : (prog.decls r).fqp ∈ st1.printed
                · have hmem2 : (prog.decls r).fqp ∈ st2.printed := by
                    rw [← hp]
                    exact hmem
                  have e1 : printFuncsList prog xf xp (F + 1) (some r :: rest) st1 =
                      printFuncsList prog xf xp F rest st1 := by
                    simp only [printFuncsList]
                    rw [if_neg hex, if_pos hmem]
                  have e2 : printFuncsList prog xf xp (F + 1) (some r :: rest) st2 =
                      printFuncsList prog xf xp F rest st2 := by
                    simp only [printFuncsList]
                    rw [if_neg hex, if_pos hmem2]
                  rw [e1, e2]
                  exact ih rest st1 st2 h1 h2 hp
                · have hmem2 : (prog.decls r).fqp ∉ st2.printed := by
                    rw [← hp]
                    exact hmem
                  obtain ⟨hca1, hpp1, hoo1, hkk1⟩ := resolveStep_spec prog r st1 h1
                  obtain ⟨hca2, hpp2, hoo2, hkk2⟩ := resolveStep_spec prog r st2 h2
                  rw [pfl_cons_eq prog xf xp F r rest st1 hexf hmem,
                      pfl_cons_eq prog xf xp F r rest st2 hexf hmem2,
                      hca1, hca2]
                  have hkt1 : cacheOk prog
                      (printNode prog (pureResolve prog r) (resolveStep prog r st1).2) :=
                    printNode_cacheOk prog _ _ hkk1
                  have hkt2 : cacheOk prog
                      (printNode prog (pureResolve prog r) (resolveStep prog r st2).2) :=
                    printNode_cacheOk prog _ _ hkk2
                  have htp : (printNode prog (pureResolve prog r)
                        (resolveStep prog r st1).2).printed =
                      (printNode prog (pureResolve prog r)
                        (resolveStep prog r st2).2).printed := by
                    rw [printNode_printed, printNode_printed, hpp1, hpp2, hp]
                  have hto1 : (printNode prog (pureResolve prog r)
                        (resolveStep prog r st1).2).output =
                      st1.output ++
                        (if (prog.decls (pureResolve prog r)).fqp ∈ st1.printed then []
                         else [(prog.decls (pureResolve prog r)).fqp]) := by
                    rw [printNode_output, hoo1, hpp1]
                  have hto2 : (printNode prog (pureResolve prog r)
                        (resolveStep prog r st2).2).output =
                      st2.output ++
                        (if (prog.decls (pureResolve prog r)).fqp ∈ st1.printed then []
                         else [(prog.decls (pureResolve prog r)).fqp]) := by
                    rw [printNode_output, hoo2, hpp2, ← hp]
                  by_cases hek :
                      (prog.decls (pureResolve prog r)).kind = CKind.cxxMethod ∨
                      (prog.decls (pureResolve prog r)).kind = CKind.constructor ∨
                      (prog.decls (pureResolve prog r)).kind = CKind.functionDecl
                  · rw [if_pos hek, if_pos hek]
                    have hrelB := ih (prog.decls (pureResolve prog r)).callRefs
                        (printNode prog (pureResolve prog r) (resolveStep prog r st1).2)
                        (printNode prog (pureResolve prog r) (resolveStep prog r st2).2)
                        hkt1 hkt2 htp
                    rcases hrelB with ⟨hn1, hn2⟩ |
                        ⟨s1, s2, seg, hs1, hs2, hsp, hso1, hso2, hks1, hks2⟩
                    · rw [hn1, hn2]
                      exact Or.inl ⟨rfl, rfl⟩
                    · rw [hs1, hs2]
                      have hrel2 := ih rest s1 s2 hks1 hks2 hsp
                      refine printRel_shift prog _ _ s1 s2 st1 st2
                          ((if (prog.decls (pureResolve prog r)).fqp ∈ st1.printed then []
                            else [(prog.decls (pureResolve prog r)).fqp]) ++ seg)
                          hrel2 ?_ ?_
                      · rw [hso1, hto1, List.append_assoc]
                      · rw [hso2, hto2, List.append_assoc]
                  · rw [if_neg hek, if_neg hek]
                    have hrel2 := ih rest
                        (printNode prog (pureResolve prog r) (resolveStep prog r st1).2)
                        (printNode prog (pureResolve prog r) (resolveStep prog r st2).2)
                        hkt1 hkt2 htp
                    exact printRel_shift prog _ _ _ _ st1 st2 _ hrel2 hto1 hto2

/-- Claim C8.  Running check_entry_points twice on an unchanged program gives
an identical violations list.  First conjunct: the full run (check phase
collecting flagged entries, then the explanation phase) is a pure function
of the program, compile commands, policy and fuel, so two runs coincide,
same flagged entries and same rendered explanations.  Second conjunct, the
substantive part: each violation explanation starts by clearing PRINTED, so
from any two run states with well formed unit caches the explanation of the
same entry emits the same output segment (and either both run out of fuel or
neither), meaning the explanations, and hence the violations list, do not
depend on leftover traversal state, only on the program. -/
theorem c8_idempotent :
    (∀ (prog : Program) (xf xp : List String) (fuel : Nat) (cmds : List String),
      analyzerRun prog xf xp fuel cmds = analyzerRun prog xf xp fuel cmds) ∧
    (∀ (prog : Program) (xf xp : List String) (F n : Nat) (st1 st2 : AState),
      cacheOk prog st1 → cacheOk prog st2 →
      printRel prog (explainOne prog xf xp F n st1) (explainOne prog xf xp F n st2)
        st1 st2) := by
  constructor
  · intro prog xf xp fuel cmds
    rfl
  · intro prog xf xp F n st1 st2 h1 h2
    simp only [explainOne]
    have hk01 : cacheOk prog ({ st1 with printed := [] } : AState) :=
      fun p u hp => h1 p u hp
    have hk02 : cacheOk prog ({ st2 with printed := [] } : AState) :=
      fun p u hp => h2 p u hp
    have hkt1 := printNode_cacheOk prog n _ hk01
    have hkt2 := printNode_cacheOk prog n _ hk02
    have htp : (printNode prog n { st1 with printed := [] }).printed =
        (printNode prog n { st2 with printed := [] }).printed := by
      rw [printNode_printed, printNode_printed]
    have hto1 : (printNode prog n { st1 with printed := [] }).output =
        st1.output ++ [(prog.decls n).fqp] := by
      rw [printNode_output]
      simp
    have hto2 : (printNode prog n { st2 with printed := [] }).output =
        st2.output ++ [(prog.decls n).fqp] := by
      rw [printNode_output]
      simp
    have hrel := printSim prog xf xp F (prog.decls n).callRefs
        (printNode prog n { st1 with printed := [] })
        (printNode prog n { st2 with printed := [] }) hkt1 hkt2 htp
    rcases hrel with ⟨hn1, hn2⟩ | ⟨s1, s2, seg, hs1, hs2, hsp, hso1, hso2, hks1, hks2⟩
    · rw [hn1, hn2]
      exact Or.inl ⟨rfl, rfl⟩
    · rw [hs1, hs2]
      refine Or.inr ⟨_, _,
        [(prog.decls n).fqp] ++ seg ++ [("--------------")], rfl, rfl, ?_, ?_, ?_, ?_, ?_⟩
      · exact hsp
      · show s1.output ++ [("--------------")] = st1.output ++ _
        rw [hso1, hto1]
        simp
      · show s2.output ++ [("--------------")] = st2.output ++ _
        rw [hso2, hto2]
        simp
      · exact fun p u hp => hks1 p u hp
      · exact fun p u hp => hks2 p u hp

theorem c8_witness :
    printRel progC2 (explainOne progC2 [] [] 9 1 initState)
      (explainOne progC2 [] [] 9 1 stC8w) initState stC8w :=
  c8_idempotent.2 progC2 [] [] 9 1 initState stC8w
    (by intro p u hp; simp [initState, lookupA] at hp)
    (by intro p u hp; simp [stC8w, lookupA] at hp)
